import Mathlib

/-!
Verification of the template-indexer and interpolation-repair modules of an
Angular compiler tooling repository.

The development shallowly embeds the TypeScript sources:
  - `packages/compiler-cli/src/ngtsc/indexer/src/template.ts`
    (expression visitor, template visitor, span correction),
  - `packages/compiler-cli/src/ngtsc/indexer/src/transform.ts`
    (two-pass component-analysis generation),
  - the interpolation-repair migration schematic.

JavaScript machine behaviour is made explicit: fallible operations return
`Except String`, out-of-bounds array reads become `Option`, number arithmetic
on spans uses `Int`, and object identity in the cyclic used-component graph is
represented by arena indices.
-/

namespace Ng

/-- Span with offsets relative to a parsed expression (`ParseSpan` in the
source).  Offsets are `Int` because the span-correction step shifts them by a
possibly negative delta. -/
structure ParseSpan where
  start : Int
  stop : Int
deriving Repr, DecidableEq

/-- Absolute source span of a template node (`sourceSpan` offsets). -/
structure SrcSpan where
  start : Nat
  stop : Nat
deriving Repr, DecidableEq

/-- A found identifier reference: `Entity` in template.ts. -/
structure Entity where
  name : String
  span : ParseSpan
deriving Repr, DecidableEq

/-- A JavaScript value produced by the expression visitor.  Every visit method
returns an array; most return flat arrays of entities, but
`visitFunctionCall` builds an array whose elements are themselves arrays, so
the element type must allow nesting. -/
inductive JVal where
  | entity (name : String) (span : ParseSpan)
  | arr (elems : List JVal)

/-- Reads the `name` property of a visited value; a nested array has no such
property (JavaScript `undefined`). -/
def jvalName : JVal → Option String
  | .entity n _ => some n
  | .arr _ => none

/-- Expression AST of the Angular template expression language, as consumed by
the `ExpressionVisitor` in template.ts.  `functionCall`'s target is optional
(`target !` in the source is a non-null assertion erased at runtime). -/
inductive AST where
  | binary (left right : AST)
  | chain (expressions : List AST)
  | conditional (condition trueExp falseExp : AST)
  | bindingPipe (exp : AST) (args : List AST)
  | functionCall (target : Option AST) (args : List AST)
  | implicitReceiver
  | interpolation (expressions : List AST)
  | keyedRead (obj key : AST)
  | keyedWrite (obj key value : AST)
  | literalArray (expressions : List AST)
  | literalMap (values : List AST)
  | literalPrimitive
  | methodCall (receiver : AST) (args : List AST)
  | prefixNot (expression : AST)
  | nonNullAssert (expression : AST)
  | propertyRead (receiver : AST) (name : String) (span : ParseSpan)
  | propertyWrite (receiver : AST) (value : AST)
  | safePropertyRead (receiver : AST) (name : String) (span : ParseSpan)
  | safeMethodCall (receiver : AST) (args : List AST)
  | quote

/-- Error raised when JavaScript dereferences a member of `undefined`. -/
def undefinedMemberMsg : String :=
  "TypeError: Cannot read properties of undefined"

namespace ExpressionVisitor

mutual

/-- Embeds `ExpressionVisitor.visit` from template.ts: collects entities of an
expression, in source order.  Each case is a direct transcription of the
corresponding `visitX` method. -/
def visit : AST → Except String (List JVal)
  | .binary left right => do
    let a ← visit left
    let b ← visit right
    .ok (a ++ b)
  | .chain expressions => visitAll expressions
  | .conditional condition trueExp falseExp => do
    let a ← visit condition
    let b ← visit trueExp
    let c ← visit falseExp
    .ok (a ++ b ++ c)
  | .bindingPipe exp args => do
    let a ← visit exp
    let b ← visitAll args
    .ok (a ++ b)
  | .functionCall none _ => .error undefinedMemberMsg
  | .functionCall (some target) args => do
    let a ← visit target
    let b ← visitAll args
    .ok [.arr a, .arr b]
  | .implicitReceiver => .ok []
  | .interpolation expressions => visitAll expressions
  | .keyedRead obj key => do
    let a ← visit obj
    let b ← visit key
    .ok (a ++ b)
  | .keyedWrite obj key value => do
    let a ← visit obj
    let b ← visit key
    let c ← visit value
    .ok (a ++ b ++ c)
  | .literalArray expressions => visitAll expressions
  | .literalMap values => visitAll values
  | .literalPrimitive => .ok []
  | .methodCall receiver args => do
    let a ← visit receiver
    let b ← visitAll args
    .ok (a ++ b)
  | .prefixNot expression => visit expression
  | .nonNullAssert expression => visit expression
  | .propertyRead receiver name span => do
    let a ← visit receiver
    .ok (a ++ [.entity name span])
  | .propertyWrite receiver value => do
    let a ← visit receiver
    let b ← visit value
    .ok (a ++ b)
  | .safePropertyRead receiver _ _ => visit receiver
  | .safeMethodCall receiver args => do
    let a ← visit receiver
    let b ← visitAll args
    .ok (a ++ b)
  | .quote => .ok []

/-- Embeds `ExpressionVisitor.visitAll`: left-to-right concatenation of the
results of visiting each expression. -/
def visitAll : List AST → Except String (List JVal)
  | [] => .ok []
  | a :: rest => do
    let x ← visit a
    let xs ← visitAll rest
    .ok (x ++ xs)

end

end ExpressionVisitor

/-- A lexed token, keeping the two fields `setRealExpressionSpan` reads:
`strValue` and `index` (offset of the token within the lexed substring). -/
structure LexToken where
  strValue : String
  index : Nat
deriving Repr, DecidableEq

/-- Modelled from the spec: the lexical tokenizer consumed by Span Correction
lives in the expression parser package, outside the given sources.  Per the
spec it re-tokenizes a raw text substring and the correction step keeps only
identifier-classified tokens.  An identifier token is a maximal run of
identifier characters starting with a letter, underscore or dollar sign. -/
def isIdentifierStart (c : Char) : Bool :=
  c.isAlpha || c == '_' || c == '$'

/-- Characters allowed after the first character of an identifier token. -/
def isIdentifierPart (c : Char) : Bool :=
  c.isAlphanum || c == '_' || c == '$'

/-- Worker for `lexIdentifiers`; the fuel argument makes the recursion
structural (it is initialized to the length of the text, which bounds the
number of steps). -/
def lexIdentifiersAux : Nat → List Char → Nat → List LexToken
  | 0, _, _ => []
  | _ + 1, [], _ => []
  | fuel + 1, c :: rest, i =>
    if isIdentifierStart c then
      let run := rest.takeWhile isIdentifierPart
      ⟨String.mk (c :: run), i⟩ ::
        lexIdentifiersAux fuel (rest.drop run.length) (i + 1 + run.length)
    else
      lexIdentifiersAux fuel rest (i + 1)

/-- Modelled from the spec: identifier-class tokens of a raw substring, in
order, each with its offset within the substring. -/
def lexIdentifiers (text : List Char) : List LexToken :=
  lexIdentifiersAux text.length text 0

/-- JavaScript `String.prototype.substring` (swaps and clamps its bounds). -/
def jsSubstring (text : List Char) (a b : Nat) : List Char :=
  (text.take (max a b)).drop (min a b)

/-- Error message thrown by `setRealExpressionSpan` on an entity/token
mismatch. -/
def impossibleParsedMsg : String :=
  "Impossible state - parsed expression should contain the same tokens it lexed."

/-- Worker for `setRealExpressionSpan`, transcribing its `forEach` body.  For
entry `index`, JavaScript first reads `lexedIdentifiers[index].strValue`
(a `TypeError` when the token list is exhausted), then compares it with
`entity.name` (always a mismatch when the element is a nested array, whose
`name` is `undefined`), then shifts the entity span by
`token.index - entity.span.start`. -/
def setRealExpressionSpanAux (lexed : List LexToken) :
    List JVal → Nat → Except String (List Entity)
  | [], _ => .ok []
  | v :: rest, index =>
    match lexed[index]? with
    | none => .error undefinedMemberMsg
    | some tok =>
      match v with
      | .arr _ => .error impossibleParsedMsg
      | .entity n sp =>
        if n ≠ tok.strValue then
          .error impossibleParsedMsg
        else
          let startOffset : Int := (tok.index : Int) - sp.start
          do
            let tail ← setRealExpressionSpanAux lexed rest (index + 1)
            .ok (⟨n, ⟨sp.start + startOffset, sp.stop + startOffset⟩⟩ :: tail)

/-- Embeds `setRealExpressionSpan` from template.ts: re-lexes the literal
source substring covered by `node` and realigns each entity span to the
corresponding identifier token. -/
def setRealExpressionSpan (entities : List JVal) (node : SrcSpan)
    (file : List Char) : Except String (List Entity) :=
  setRealExpressionSpanAux
    (lexIdentifiers (jsSubstring file node.start node.stop)) entities 0

/-- A semantically interesting identifier (`TemplateIdentifier` in the
source); `file` is the content of the owning source file. -/
structure TemplateIdentifier where
  name : String
  scope : List String
  span : ParseSpan
  file : List Char
deriving Repr, DecidableEq

/-- A scope-stack frame of the template visitor: the node's name (possibly
empty) and its absolute source span. -/
structure Frame where
  name : String
  span : SrcSpan
deriving Repr, DecidableEq

/-- Template AST node (the `r3_ast` node kinds consumed by the template
visitor), with exactly the fields the visitor reads. -/
inductive TmplNode where
  | Element (name : String) (attributes children references : List TmplNode)
      (sourceSpan : SrcSpan)
  | Template (tagName : String)
      (attributes children references vars : List TmplNode)
      (sourceSpan : SrcSpan)
  | Content (sourceSpan : SrcSpan)
  | Variable (name : String) (sourceSpan : SrcSpan)
  | Reference (name : String) (sourceSpan : SrcSpan)
  | TextAttribute (name : String) (sourceSpan : SrcSpan)
  | BoundAttribute (name : String) (value : AST) (sourceSpan : SrcSpan)
  | BoundEvent (name : String) (sourceSpan : SrcSpan)
  | Text (sourceSpan : SrcSpan)
  | BoundText (value : AST) (sourceSpan : SrcSpan)
  | Icu (sourceSpan : SrcSpan)

/-- The frame name pushed by `TemplateVisitor.visit`:
`node.tagName || node.name || ''`.  Node kinds with neither property yield the
empty string. -/
def nodeName : TmplNode → String
  | .Element n _ _ _ _ => n
  | .Template t _ _ _ _ _ => t
  | .Content _ => ""
  | .Variable n _ => n
  | .Reference n _ => n
  | .TextAttribute n _ => n
  | .BoundAttribute n _ _ => n
  | .BoundEvent n _ => n
  | .Text _ => ""
  | .BoundText _ _ => ""
  | .Icu _ => ""

/-- The `sourceSpan` of a template node. -/
def nodeSourceSpan : TmplNode → SrcSpan
  | .Element _ _ _ _ sp => sp
  | .Template _ _ _ _ _ sp => sp
  | .Content sp => sp
  | .Variable _ sp => sp
  | .Reference _ sp => sp
  | .TextAttribute _ sp => sp
  | .BoundAttribute _ _ sp => sp
  | .BoundEvent _ sp => sp
  | .Text sp => sp
  | .BoundText _ sp => sp
  | .Icu sp => sp

/-- Error thrown by `TemplateVisitor.addIdentifiers` on an empty scope
stack. -/
def emptyContextMsg : String :=
  "Impossible state: identifiers must be added from an expression inside a node."

namespace TemplateVisitor

/-- Embeds `TemplateVisitor.addIdentifiers`: corrects the entity spans via
`setRealExpressionSpan`, derives the scope from the context stack (dropping
anonymous frames), requires a non-empty stack, and re-anchors each span at the
absolute start offset of the innermost frame. -/
def addIdentifiers (file : List Char) (context : List Frame)
    (visitedEntities : List JVal) (currentNode : SrcSpan) :
    Except String (List TemplateIdentifier) := do
  let entities ← setRealExpressionSpan visitedEntities currentNode file
  let localScope := (context.map Frame.name).filter (· != "")
  if h : context = [] then
    .error emptyContextMsg
  else
    let localOffset : Int := ((context.getLast h).span.start : Int)
    .ok (entities.map fun ent =>
      ⟨ent.name, localScope,
        ⟨localOffset + ent.span.start, localOffset + ent.span.stop⟩, file⟩)

mutual

/-- Embeds `TemplateVisitor.visit` fused with the per-kind `visitX` dispatch:
pushes the node's frame, recurses into the structural children appropriate for
the node kind, and processes bound-attribute/bound-text expressions through
the expression visitor and `addIdentifiers`. -/
def visit (file : List Char) (context : List Frame) :
    TmplNode → Except String (List TemplateIdentifier)
  | .Element name attributes children references sp => do
    let c := context ++ [⟨name, sp⟩]
    let a ← visitAll file c attributes
    let b ← visitAll file c children
    let r ← visitAll file c references
    .ok (a ++ b ++ r)
  | .Template tagName attributes children references vars sp => do
    let c := context ++ [⟨tagName, sp⟩]
    let a ← visitAll file c attributes
    let b ← visitAll file c children
    let r ← visitAll file c references
    let v ← visitAll file c vars
    .ok (a ++ b ++ r ++ v)
  | .Content _ => .ok []
  | .Variable _ _ => .ok []
  | .Reference _ _ => .ok []
  | .TextAttribute _ _ => .ok []
  | .BoundAttribute name value sp => do
    let ents ← ExpressionVisitor.visit value
    addIdentifiers file (context ++ [⟨name, sp⟩]) ents sp
  | .BoundEvent _ _ => .ok []
  | .Text _ => .ok []
  | .BoundText value sp => do
    let ents ← ExpressionVisitor.visit value
    addIdentifiers file (context ++ [⟨"", sp⟩]) ents sp
  | .Icu _ => .ok []

/-- Embeds `TemplateVisitor.visitAll`: visits the nodes in order,
concatenating the identifiers they contribute. -/
def visitAll (file : List Char) (context : List Frame) :
    List TmplNode → Except String (List TemplateIdentifier)
  | [] => .ok []
  | n :: rest => do
    let x ← visit file context n
    let xs ← visitAll file context rest
    .ok (x ++ xs)

end

end TemplateVisitor

/-- Embeds `getTemplateIdentifiers`: traverses the top-level template nodes
with a fresh visitor (empty scope stack, empty identifier buffer).  The
content of the template's source file, which every node of the real AST
references through its source span, is passed explicitly. -/
def getTemplateIdentifiers (file : List Char) (template : List TmplNode) :
    Except String (List TemplateIdentifier) :=
  TemplateVisitor.visitAll file [] template

/-! ## Analysis generation (transform.ts) -/

/-- A directive returned by `scope.getUsedDirectives()`, with the two
properties `generateAnalysis` reads: its display name and whether it is a
component. -/
structure DirectiveMeta where
  name : String
  isComponent : Bool
deriving Repr, DecidableEq

/-- A component registered in the indexing context.  `ts.Declaration` is
external to the sources; it is represented by the three projections
`generateAnalysis` takes from it: `declaration.name.getText()`,
`declaration.getSourceFile().fileName` and
`declaration.getSourceFile().getFullText()`.  `scope` is `none` for a `null`
binding scope, otherwise the list `scope.getUsedDirectives()` would return. -/
structure ComponentInfo where
  declarationName : String
  selector : Option String
  sourceFileName : String
  sourceFullText : String
  template : List TmplNode
  templateFile : List Char
  scope : Option (List DirectiveMeta)

/-- A produced analysis record (`IndexedComponent`).  The cyclic
`usedComponents` object graph of the JavaScript heap is represented as an
arena: the output list of `generateAnalysis` is the arena and
`usedComponents` holds arena indices, so index `i` stands for a reference to
the `i`-th analysis object. -/
structure IndexedComponent where
  name : String
  selector : Option String
  sourceFile : String
  content : String
  identifiers : List TemplateIdentifier
  usedComponents : List Nat
deriving Repr, DecidableEq

/-- The shallow analysis record built in the first pass of
`generateAnalysis`, with `usedComponents` initialized to the empty array. -/
def mkAnalysis (c : ComponentInfo) (ids : List TemplateIdentifier) :
    IndexedComponent :=
  ⟨c.declarationName, c.selector, c.sourceFileName, c.sourceFullText, ids, []⟩

/-- First pass of `generateAnalysis` (`context.components.map(...)`): builds
one shallow record per registered component, in registration order,
propagating any exception from `getTemplateIdentifiers`. -/
def pass1 : List ComponentInfo → Except String (List IndexedComponent)
  | [] => .ok []
  | c :: rest => do
    let ids ← getTemplateIdentifiers c.templateFile c.template
    let tail ← pass1 rest
    .ok (mkAnalysis c ids :: tail)

/-- Lookup in the name-keyed `componentMap` after all `set` calls of the
first pass: `Map.get` returns the value of the LAST `set` for a key, i.e. the
greatest registration index bearing that name. -/
def lastIndexOf (names : List String) (key : String) : Option Nat :=
  match names with
  | [] => none
  | n :: rest =>
    match lastIndexOf rest key with
    | some j => some (j + 1)
    | none => if n = key then some 0 else none

/-- The used-component data remembered for the second pass: `null` when the
component has no binding scope, otherwise `getUsedDirectives()` filtered to
components. -/
def dataOf (c : ComponentInfo) : Option (List DirectiveMeta) :=
  c.scope.map (fun dirs => dirs.filter (·.isComponent))

/-- Second-pass update of one record: when the remembered data is present,
resolve each referenced directive by name in the component map and silently
drop the ones that resolve to nothing. -/
def applyData (names : List String) (r : IndexedComponent) :
    Option (List DirectiveMeta) → IndexedComponent
  | none => r
  | some used =>
    { r with usedComponents := used.filterMap (fun d => lastIndexOf names d.name) }

/-- Embeds `generateAnalysis` from transform.ts: the first pass builds the
records and the name lookup map, the second pass rewrites `usedComponents`
into references (arena indices) to the previously built records. -/
def generateAnalysis (context : List ComponentInfo) :
    Except String (List IndexedComponent) :=
  (pass1 context).map (fun recs =>
    List.zipWith (applyData (context.map (·.declarationName))) recs
      (context.map dataOf))

/-- Does an `Except` hold an error? -/
def isErr : Except String α → Bool
  | .error _ => true
  | .ok _ => false

/-! ## Interpolation repair pass (migration schematic) -/

/-- Interpolation-delimiter configuration attached to a resolved template;
`unknown` is the literal `'unknown'` sentinel of the schematic. -/
inductive InterpolationConfig where
  | unknown
  | config (start : String) (stop : String)
deriving Repr, DecidableEq, BEq

/-- A template found by the schematic's template visitor, with the fields the
repair pass reads. -/
structure ResolvedTemplate where
  filePath : String
  content : List Char
  start : Nat
  inline : Bool
  interpolationConfig : InterpolationConfig
deriving Repr, DecidableEq

/-- An absolute source span recorded for a detected invalid interpolation. -/
structure AbsoluteSourceSpan where
  start : Nat
  stop : Nat
deriving Repr, DecidableEq

/-- One detected invalid interpolation: the matched text and its absolute
span. -/
structure InvalidInterpolation where
  original : List Char
  span : AbsoluteSourceSpan
deriving Repr, DecidableEq

/-- The result of repairing one template. -/
structure FixedTemplate where
  originalTemplate : ResolvedTemplate
  newContent : List Char
  invalidInterpolations : List InvalidInterpolation
deriving Repr, DecidableEq

/-- JavaScript `\s` for the whitespace characters that can occur in the
lookbehind of the interpolation patterns. -/
def isJsSpace (c : Char) : Bool :=
  c == ' ' || c == '\t' || c == '\n' || c == '\r' ||
    c == '\x0b' || c == '\x0c'

/-- Negative lookbehind of both patterns.  Given the characters before the
match position in reverse order, the lookbehind REJECTS the position when a
quote directly precedes it, possibly separated by whitespace. -/
def quoteBeforeSpaces : List Char → Bool
  | [] => false
  | c :: rest =>
    if c == '\'' || c == '"' then true
    else if isJsSpace c then quoteBeforeSpaces rest
    else false

/-- Index of the first occurrence of a character. -/
def findChar (q : Char) : List Char → Option Nat
  | [] => none
  | c :: rest => if c == q then some 0 else (findChar q rest).map (· + 1)

/-- Offsets at which the lazy group of the interpolation patterns can stop,
in increasing order.  The group is a sequence of units determined by the
current character: a quoted chunk running to the next identical quote, or a
single character other than a closing brace and the quotes. -/
def groupStops : Nat → List Char → List Nat
  | _, [] => [0]
  | 0, _ => [0]
  | fuel + 1, c :: rest =>
    if c == '}' then [0]
    else if c == '\'' then
      match findChar '\'' rest with
      | none => [0]
      | some m => 0 :: (groupStops fuel (rest.drop (m + 1))).map (· + (m + 2))
    else if c == '"' then
      match findChar '"' rest with
      | none => [0]
      | some m => 0 :: (groupStops fuel (rest.drop (m + 1))).map (· + (m + 2))
    else
      0 :: (groupStops fuel rest).map (· + 1)

/-- Does `p` occur as a prefix of `l`? -/
def startsWithChars : List Char → List Char → Bool
  | [], _ => true
  | _ :: _, [] => false
  | p :: ps, c :: cs => p == c && startsWithChars ps cs

/-- Tail of the comment pattern: the smallest length the lazy `(.*?)` can
take such that the remaining text starts with the closing sequence of a
brace-wrapped comment; the dot of the pattern cannot cross a line break. -/
def findCommentClose : List Char → Option Nat
  | [] => none
  | c :: rest =>
    if startsWithChars (("-->" ++ "\x7d").data) (c :: rest) then some 0
    else if c == '\n' || c == '\r' then none
    else (findCommentClose rest).map (· + 1)

/-- Continuation of the first pattern after the group: a closing brace, the
comment opener, the lazily matched comment body and the comment closer
followed by a brace.  Returns the number of consumed characters and the
second capture group. -/
def cont1 : List Char → Option (Nat × List Char)
  | '}' :: rest =>
    if startsWithChars (("<!--").data) rest then
      let body := rest.drop 4
      (findCommentClose body).map (fun n => (1 + 4 + n + 4, body.take n))
    else none
  | _ => none

/-- Continuation of the second pattern after the group: a closing brace not
followed by another closing brace. -/
def cont2 : List Char → Option Nat
  | '}' :: rest =>
    match rest with
    | '}' :: _ => none
    | _ => some 1
  | _ => none

/-- Tries the group stops of the first pattern in increasing (lazy) order;
returns the total match length past the opening braces, the first and the
second capture group. -/
def tryStops1 (after : List Char) : List Nat → Option (Nat × List Char × List Char)
  | [] => none
  | q :: qs =>
    match cont1 (after.drop q) with
    | some (consumed, g2) => some (2 + q + consumed, after.take q, g2)
    | none => tryStops1 after qs

/-- Tries the group stops of the second pattern in increasing (lazy) order. -/
def tryStops2 (after : List Char) : List Nat → Option (Nat × List Char)
  | [] => none
  | q :: qs =>
    match cont2 (after.drop q) with
    | some consumed => some (2 + q + consumed, after.take q)
    | none => tryStops2 after qs

/-- A regular-expression match: its index in the scanned text, the matched
text and the capture groups. -/
structure RMatch where
  index : Nat
  text : List Char
  g1 : List Char
  g2 : List Char
deriving Repr, DecidableEq

/-- Match attempt of the first pattern at one position (`revPre` holds the
preceding characters in reverse for the lookbehind). -/
def tryMatchAt1 (revPre : List Char) : List Char → Option (Nat × List Char × List Char)
  | '{' :: '{' :: after =>
    if quoteBeforeSpaces revPre then none
    else tryStops1 after (groupStops after.length after)
  | _ => none

/-- Match attempt of the second pattern at one position. -/
def tryMatchAt2 (revPre : List Char) : List Char → Option (Nat × List Char)
  | '{' :: '{' :: after =>
    if quoteBeforeSpaces revPre then none
    else tryStops2 after (groupStops after.length after)
  | _ => none

/-- Global scan of the first pattern: like repeated `RegExp.exec`, matches
are found left to right and the scan resumes at the end of each match. -/
def scanAux1 : Nat → List Char → List Char → Nat → List RMatch
  | 0, _, _, _ => []
  | _ + 1, _, [], _ => []
  | fuel + 1, revPre, c :: rest, pos =>
    match tryMatchAt1 revPre (c :: rest) with
    | some (len, g1, g2) =>
      ⟨pos, (c :: rest).take len, g1, g2⟩ ::
        scanAux1 fuel (((c :: rest).take len).reverseAux revPre)
          ((c :: rest).drop len) (pos + len)
    | none => scanAux1 fuel (c :: revPre) rest (pos + 1)

/-- Global scan of the second pattern. -/
def scanAux2 : Nat → List Char → List Char → Nat → List RMatch
  | 0, _, _, _ => []
  | _ + 1, _, [], _ => []
  | fuel + 1, revPre, c :: rest, pos =>
    match tryMatchAt2 revPre (c :: rest) with
    | some (len, g1) =>
      ⟨pos, (c :: rest).take len, g1, []⟩ ::
        scanAux2 fuel (((c :: rest).take len).reverseAux revPre)
          ((c :: rest).drop len) (pos + len)
    | none => scanAux2 fuel (c :: revPre) rest (pos + 1)

/-- All matches of the first interpolation pattern in a text. -/
def execRegex1 (s : List Char) : List RMatch :=
  scanAux1 s.length [] s 0

/-- All matches of the second interpolation pattern in a text. -/
def execRegex2 (s : List Char) : List RMatch :=
  scanAux2 s.length [] s 0

/-- Replacement template of the first rule:
an escaped opening delimiter, the expression, an escaped closing delimiter
and the preserved comment. -/
def replacement1 (m : RMatch) : List Char :=
  ("\x7b\x7b '\x7b\x7b' \x7d\x7d").data ++ m.g1 ++
    ("\x7b\x7b '\x7d\x7d' \x7d\x7d").data ++
    ("<!--").data ++ m.g2 ++ ("-->").data

/-- Replacement template of the second rule. -/
def replacement2 (m : RMatch) : List Char :=
  ("\x7b\x7b '\x7b\x7b' \x7d\x7d").data ++ m.g1 ++
    ("\x7b\x7b '\x7d' \x7d\x7d").data

/-- Splices the replacement of every match into the text
(`String.prototype.replace` with a global pattern); `pos` is the text offset
of the first character of `s`. -/
def spliceAux (repl : RMatch → List Char) : Nat → List Char → List RMatch → List Char
  | _, s, [] => s
  | pos, s, m :: ms =>
    (s.take (m.index - pos)) ++ repl m ++
      spliceAux repl (m.index + m.text.length)
        (s.drop (m.index - pos + m.text.length)) ms

/-- Applies all matches of a scan to the text. -/
def replaceAll (repl : RMatch → List Char) (s : List Char) (ms : List RMatch) :
    List Char :=
  spliceAux repl 0 s ms

/-- Embeds `fixInterpolations`: for each rule in order, first collect every
match of the rule in the current content as an invalid interpolation (spans
shifted by the template's start offset), then rewrite the content with the
rule's replacement; returns `none` when no rule matched anywhere. -/
def fixInterpolations (template : ResolvedTemplate) : Option FixedTemplate :=
  let c0 := template.content
  let ms1 := execRegex1 c0
  let inv1 := ms1.map (fun m =>
    (⟨m.text, ⟨template.start + m.index, template.start + m.index + m.text.length⟩⟩ :
      InvalidInterpolation))
  let c1 := replaceAll replacement1 c0 ms1
  let ms2 := execRegex2 c1
  let inv2 := ms2.map (fun m =>
    (⟨m.text, ⟨template.start + m.index, template.start + m.index + m.text.length⟩⟩ :
      InvalidInterpolation))
  let c2 := replaceAll replacement2 c1 ms2
  let invalidInterpolations := inv1 ++ inv2
  if invalidInterpolations.isEmpty then none
  else some ⟨template, c2, invalidInterpolations⟩

/-- The skip condition of `getFixesByFile`: an unknown interpolation config,
or one whose delimiters differ from the default pair. -/
def skipTemplate (t : ResolvedTemplate) : Bool :=
  match t.interpolationConfig with
  | .unknown => true
  | .config s e => !(s == "\x7b\x7b" && e == "\x7d\x7d")

/-- Does the fixes-by-file map already have an entry for a file? -/
def fbfHas (m : List (String × List FixedTemplate)) (f : String) : Bool :=
  m.any (fun e => e.1 == f)

/-- Appends a fix to the existing entry of a file. -/
def fbfPush (m : List (String × List FixedTemplate)) (f : String)
    (tf : FixedTemplate) : List (String × List FixedTemplate) :=
  m.map (fun e => if e.1 == f then (e.1, e.2 ++ [tf]) else e)

/-- Worker for `getFixesByFile`, folding over the templates while building
the insertion-ordered fixes-by-file map. -/
def getFixesByFileAux (acc : List (String × List FixedTemplate)) :
    List ResolvedTemplate → List (String × List FixedTemplate)
  | [] => acc
  | t :: rest =>
    if skipTemplate t then getFixesByFileAux acc rest
    else
      match fixInterpolations t with
      | none => getFixesByFileAux acc rest
      | some tf =>
        if fbfHas acc t.filePath then
          if t.inline then getFixesByFileAux (fbfPush acc t.filePath tf) rest
          else getFixesByFileAux acc rest
        else getFixesByFileAux (acc ++ [(t.filePath, [tf])]) rest

/-- Embeds `getFixesByFile`: fixes for the repairable templates, grouped by
file in first-encounter order; templates with a non-default interpolation
configuration are skipped outright, and an already-recorded file only
receives further fixes for inline templates. -/
def getFixesByFile (templates : List ResolvedTemplate) :
    List (String × List FixedTemplate) :=
  getFixesByFileAux [] templates

/-- Modelled from the spec: `computeLineStartsMap` (in the schematic's utils,
outside the given sources) precomputes the table of line-start offsets of a
file. -/
def lineStartsAux : List Char → Nat → List Nat
  | [], _ => []
  | c :: rest, i =>
    if c == '\n' then (i + 1) :: lineStartsAux rest (i + 1)
    else lineStartsAux rest (i + 1)

/-- Table of line-start offsets: offset 0 plus the offset after every line
break. -/
def computeLineStartsMap (s : List Char) : List Nat :=
  0 :: lineStartsAux s 0

/-- Modelled from the spec: `getLineAndCharacterFromPosition` maps an offset
to the zero-based line/column pair of the greatest line start not exceeding
it; the repair pass reports these one-based (`line + 1`, `character + 1`). -/
def linePosOf : List Nat → Nat → Nat × Nat
  | [], pos => (0, pos)
  | s :: rest, pos =>
    match rest with
    | [] => (0, pos - s)
    | s2 :: _ =>
      if pos < s2 then (0, pos - s)
      else
        let lc := linePosOf rest pos
        (lc.1 + 1, lc.2)

/-- Line/character lookup over a precomputed line-start table. -/
def getLineAndCharacterFromPosition (starts : List Nat) (pos : Nat) : Nat × Nat :=
  linePosOf starts pos

/-! ## Concrete inputs used by the theorems -/

/-- Source text of the template of the first testable property. -/
def divFooFile : List Char := ("<div>" ++ "\x7b\x7bfoo\x7d\x7d" ++ "</div>").data

/-- Modelled from the spec: the external template parser is a black box; this
is the AST it produces for the text of `divFooFile` — a `div` element
spanning the whole text whose only child is the bound text `\x7b\x7bfoo\x7d\x7d`
(offsets 5 to 12) holding an interpolation with a single property read of
`foo`, whose parse span is relative to the bound text. -/
def parsedDivFoo : List TmplNode :=
  [.Element "div" []
    [.BoundText
      (.interpolation [.propertyRead .implicitReceiver "foo" ⟨2, 5⟩]) ⟨5, 12⟩]
    [] ⟨0, 18⟩]

/-! ## Claim theorems -/

/-- C1: for the parsed template of `<div>` `\x7b\x7bfoo\x7d\x7d` `</div>`,
`getTemplateIdentifiers` returns exactly one identifier, named `foo`, with
scope `["div"]`, and a span equal to the offsets (7 to 10) of `foo` in the
literal source text, after span correction realigned the entity to the
re-lexed token and added the enclosing bound-text node's source-span start. -/
theorem c1_divFoo_identifier :
    getTemplateIdentifiers divFooFile parsedDivFoo =
      .ok [⟨"foo", ["div"], ⟨7, 10⟩, divFooFile⟩] := rfl

/-- The expression `f(x)`: a function call whose target is a property read of
`f` and whose single argument is a property read of `x`. -/
def c2FailingInput : AST :=
  .functionCall (some (.propertyRead .implicitReceiver "f" ⟨0, 1⟩))
    [.propertyRead .implicitReceiver "x" ⟨2, 3⟩]

/-- C2 (code bug): `visitFunctionCall` omits the spreads every other compound
form uses, so the visitor returns a TWO-element array whose elements are the
target's and the arguments' entity arrays — nested, not the flat
concatenation the spec describes.  Feeding such a nested value downstream
makes `setRealExpressionSpan` throw, since a nested array has no `name`. -/
theorem c2_functionCall_nested :
    ExpressionVisitor.visit c2FailingInput =
      .ok [.arr [.entity "f" ⟨0, 1⟩], .arr [.entity "x" ⟨2, 3⟩]] ∧
    isErr (TemplateVisitor.addIdentifiers (("f(x)").data) [⟨"div", ⟨0, 4⟩⟩]
      [.arr [.entity "f" ⟨0, 1⟩], .arr [.entity "x" ⟨2, 3⟩]] ⟨0, 4⟩) = true :=
  ⟨rfl, rfl⟩

/-- C10: a safe property read contributes only its receiver's entities and
none for its own name, while a plain property read appends an entity for
itself after its receiver's entities. -/
theorem c10_safePropertyRead_no_entity :
    ∀ (receiver : AST) (name : String) (span : ParseSpan),
      ExpressionVisitor.visit (.safePropertyRead receiver name span) =
        ExpressionVisitor.visit receiver ∧
      ExpressionVisitor.visit (.propertyRead receiver name span) =
        (ExpressionVisitor.visit receiver).bind
          (fun ents => .ok (ents ++ [.entity name span])) :=
  fun _ _ _ => ⟨rfl, rfl⟩

/-- Is the zipped token missing or name-mismatched for this entity?  The
token side is `none` when the re-lexed identifier tokens are exhausted. -/
def pairBadP (v : JVal) : Option LexToken → Prop
  | none => True
  | some t => jvalName v ≠ some t.strValue

instance pairBadPDecidable (v : JVal) (o : Option LexToken) :
    Decidable (pairBadP v o) :=
  match o with
  | none => .isTrue trivial
  | some t => inferInstanceAs (Decidable (jvalName v ≠ some t.strValue))

/-- Span correction errors whenever some entity index has a missing or
name-mismatched token. -/
theorem setRealAux_err_of_bad (lexed : List LexToken) :
    ∀ (entities : List JVal) (i j : Nat) (v : JVal),
      entities[j]? = some v → pairBadP v lexed[i + j]? →
      isErr (setRealExpressionSpanAux lexed entities i) = true := by
  intro entities
  induction entities with
  | nil => intro i j v hj _; simp at hj
  | cons v0 rest ih =>
    intro i j v hj hbad
    cases j with
    | zero =>
      rw [List.getElem?_cons_zero, Option.some_inj] at hj
      subst hj
      cases hL : lexed[i]? with
      | none => simp [setRealExpressionSpanAux, hL, isErr]
      | some t =>
        rw [Nat.add_zero, hL] at hbad
        cases v0 with
        | arr elems => simp [setRealExpressionSpanAux, hL, isErr]
        | entity n sp =>
          simp only [pairBadP, jvalName, ne_eq, Option.some_inj] at hbad
          simp [setRealExpressionSpanAux, hL, hbad, isErr]
    | succ j =>
      rw [List.getElem?_cons_succ] at hj
      have harith : i + (j + 1) = (i + 1) + j := by omega
      rw [harith] at hbad
      have htail := ih (i + 1) j v hj hbad
      cases hL : lexed[i]? with
      | none => simp [setRealExpressionSpanAux, hL, isErr]
      | some t =>
        cases v0 with
        | arr elems => simp [setRealExpressionSpanAux, hL, isErr]
        | entity n sp =>
          by_cases hne : n = t.strValue
          · cases haux : setRealExpressionSpanAux lexed rest (i + 1) with
            | error e =>
              simp [setRealExpressionSpanAux, hL, hne, haux, isErr,
                Bind.bind, Except.bind]
            | ok tail => rw [haux] at htail; simp [isErr] at htail
          · simp [setRealExpressionSpanAux, hL, hne, isErr]

/-- Span correction succeeds when every entity index has a matching token,
even when the token list is longer than the entity list. -/
theorem setRealAux_ok_of_good (lexed : List LexToken) :
    ∀ (entities : List JVal) (i : Nat),
      (∀ (j : Nat) (v : JVal), entities[j]? = some v → ¬ pairBadP v lexed[i + j]?) →
      isErr (setRealExpressionSpanAux lexed entities i) = false := by
  intro entities
  induction entities with
  | nil => intro i _; simp [setRealExpressionSpanAux, isErr]
  | cons v0 rest ih =>
    intro i hgood
    have h0 := hgood 0 v0 (by simp)
    rw [Nat.add_zero] at h0
    cases hL : lexed[i]? with
    | none => rw [hL] at h0; exact absurd trivial h0
    | some t =>
      rw [hL] at h0
      simp only [pairBadP, ne_eq, not_not] at h0
      cases v0 with
      | arr elems => simp [jvalName] at h0
      | entity n sp =>
        simp only [jvalName, Option.some_inj] at h0
        have htail : isErr (setRealExpressionSpanAux lexed rest (i + 1)) = false := by
          apply ih
          intro j v hj
          have := hgood (j + 1) v (by simpa using hj)
          have harith : i + (j + 1) = (i + 1) + j := by omega
          rwa [harith] at this
        cases haux : setRealExpressionSpanAux lexed rest (i + 1) with
        | error e => rw [haux] at htail; simp [isErr] at htail
        | ok tail =>
          simp [setRealExpressionSpanAux, hL, h0, haux, isErr,
            Bind.bind, Except.bind]

/-- C3 (amended): span correction fails with an error when, at some entity
index, the re-lexed token is missing (fewer identifier tokens than entities)
or its name differs from the entity's; but when every entity index pairs with
an equally named token the operation succeeds, even when extra re-lexed
tokens remain beyond the entity count — that direction of mismatch is
silently tolerated. -/
theorem c3_mismatch_behaviour :
    (∀ (entities : List JVal) (node : SrcSpan) (file : List Char)
       (j : Nat) (v : JVal),
       entities[j]? = some v →
       pairBadP v (lexIdentifiers (jsSubstring file node.start node.stop))[j]? →
       isErr (setRealExpressionSpan entities node file) = true) ∧
    (∀ (entities : List JVal) (node : SrcSpan) (file : List Char),
       (∀ (j : Nat) (v : JVal), entities[j]? = some v →
         ¬ pairBadP v (lexIdentifiers (jsSubstring file node.start node.stop))[j]?) →
       isErr (setRealExpressionSpan entities node file) = false) := by
  constructor
  · intro entities node file j v hj hbad
    exact setRealAux_err_of_bad _ entities 0 j v hj (by simpa using hbad)
  · intro entities node file hgood
    exact setRealAux_ok_of_good _ entities 0 (by simpa using hgood)

/-- C3 witness: a name mismatch (`a` against token `b`) errors, and one
entity against the two tokens of `a b` succeeds — the extra token is
ignored. -/
theorem c3_mismatch_behaviour_witness :
    isErr (setRealExpressionSpan [.entity "a" ⟨0, 1⟩] ⟨0, 1⟩ (("b").data)) = true ∧
    isErr (setRealExpressionSpan [.entity "a" ⟨0, 1⟩] ⟨0, 3⟩ (("a b").data)) = false := by
  constructor
  · exact c3_mismatch_behaviour.1 [.entity "a" ⟨0, 1⟩] ⟨0, 1⟩ (("b").data) 0
      (.entity "a" ⟨0, 1⟩) (by simp) (by decide)
  · exact c3_mismatch_behaviour.2 [.entity "a" ⟨0, 1⟩] ⟨0, 3⟩ (("a b").data)
      (by
        intro j v hj
        match j, hj with
        | 0, hj =>
          rw [List.getElem?_cons_zero, Option.some_inj] at hj
          subst hj
          decide)

/-- C3 counterexample: with one discovered entity `a` and a node substring
re-lexing to the TWO identifier tokens of `a b`, span correction succeeds
silently — a count mismatch with more tokens than entities is tolerated,
contradicting the claim that any count mismatch is an error. -/
theorem c3_counterexample :
    setRealExpressionSpan [.entity "a" ⟨0, 1⟩] ⟨0, 3⟩ (("a b").data) =
      .ok [⟨"a", ⟨0, 1⟩⟩] ∧
    (lexIdentifiers (jsSubstring (("a b").data) 0 3)).length = 2 :=
  ⟨rfl, rfl⟩

/-- Component `A`, whose binding scope reports the component named `B` as a
used directive. -/
def componentA : ComponentInfo :=
  ⟨"A", some "a-selector", "TESTFILE", "class A \x7b\x7d;", [], [],
    some [⟨"B", true⟩]⟩

/-- Component `B`, whose binding scope reports the component named `A` as a
used directive. -/
def componentB : ComponentInfo :=
  ⟨"B", some "b-selector", "TESTFILE", "class B \x7b\x7d;", [], [],
    some [⟨"A", true⟩]⟩

/-- C4: on a registry with two mutually referencing components,
`generateAnalysis` terminates (it is a total function) and produces the two
analysis records in registration order, whose `usedComponents` lists form a
2-cycle of references: record 0 references record 1 and record 1 references
record 0 (arena indices stand for JavaScript object references, so the cycle
is one of identities, not of unrolled copies). -/
theorem c4_mutual_reference_cycle :
    generateAnalysis [componentA, componentB] =
      .ok [⟨"A", some "a-selector", "TESTFILE", "class A \x7b\x7d;", [], [1]⟩,
           ⟨"B", some "b-selector", "TESTFILE", "class B \x7b\x7d;", [], [0]⟩] :=
  rfl

/-- Elementwise description of the first pass: record `i` is the shallow
analysis of component `i`, built from its identifiers. -/
theorem pass1_ok_get :
    ∀ (context : List ComponentInfo) (recs : List IndexedComponent),
      pass1 context = .ok recs →
      ∀ (i : Nat) (comp : ComponentInfo), context[i]? = some comp →
        ∃ ids, getTemplateIdentifiers comp.templateFile comp.template = .ok ids ∧
          recs[i]? = some (mkAnalysis comp ids) := by
  intro context
  induction context with
  | nil => intro recs _ i comp hcomp; simp at hcomp
  | cons c rest ih =>
    intro recs hrecs i comp hcomp
    cases hids : getTemplateIdentifiers c.templateFile c.template with
    | error e => simp [pass1, hids, Bind.bind, Except.bind] at hrecs
    | ok ids =>
      cases htail : pass1 rest with
      | error e => simp [pass1, hids, htail, Bind.bind, Except.bind] at hrecs
      | ok tail =>
        simp only [pass1, hids, htail, Bind.bind, Except.bind,
          Except.ok.injEq] at hrecs
        subst hrecs
        cases i with
        | zero =>
          rw [List.getElem?_cons_zero, Option.some_inj] at hcomp
          subst hcomp
          exact ⟨ids, hids, by simp⟩
        | succ i =>
          rw [List.getElem?_cons_succ] at hcomp
          obtain ⟨ids', h1, h2⟩ := ih tail htail i comp hcomp
          exact ⟨ids', h1, by simpa using h2⟩

/-- Indexing a `zipWith` of two lists. -/
theorem zipWith_getElemQ (f : α → β → γ) :
    ∀ (as : List α) (bs : List β) (i : Nat),
      (List.zipWith f as bs)[i]? =
        match as[i]?, bs[i]? with
        | some a, some b => some (f a b)
        | _, _ => none := by
  intro as
  induction as with
  | nil => intro bs i; cases bs <;> cases i <;> simp
  | cons a as ih =>
    intro bs i
    cases bs with
    | nil => cases i <;> simp
    | cons b bs => cases i with
      | zero => simp
      | succ i => simpa using ih bs i

/-- C5: in the second pass, every component whose remembered used-component
data is present gets, as its `usedComponents`, exactly the referenced
component directives that resolve by name in the component map, in order —
unresolved names are dropped without any error — while all other fields of
its record keep their first-pass values; and `generateAnalysis` errors
exactly when the first pass errors, so unresolved references never fail the
analysis. -/
theorem c5_unresolved_references_dropped :
    (∀ (context : List ComponentInfo) (result : List IndexedComponent)
       (i : Nat) (comp : ComponentInfo) (dirs : List DirectiveMeta),
       generateAnalysis context = .ok result →
       context[i]? = some comp →
       comp.scope = some dirs →
       ∃ r ids,
         result[i]? = some r ∧
         getTemplateIdentifiers comp.templateFile comp.template = .ok ids ∧
         r.usedComponents = (dirs.filter (fun d => d.isComponent)).filterMap
           (fun d => lastIndexOf (context.map (fun c => c.declarationName)) d.name) ∧
         r.name = comp.declarationName ∧
         r.selector = comp.selector ∧
         r.sourceFile = comp.sourceFileName ∧
         r.content = comp.sourceFullText ∧
         r.identifiers = ids) ∧
    (∀ context : List ComponentInfo,
       isErr (generateAnalysis context) = isErr (pass1 context)) := by
  constructor
  · intro context result i comp dirs hres hcomp hscope
    cases hp : pass1 context with
    | error e => simp [generateAnalysis, hp, Except.map] at hres
    | ok recs =>
      simp only [generateAnalysis, hp, Except.map, Except.ok.injEq] at hres
      subst hres
      obtain ⟨ids, hids, hrec⟩ := pass1_ok_get context recs hp i comp hcomp
      refine ⟨applyData (context.map (fun c => c.declarationName))
        (mkAnalysis comp ids) (dataOf comp), ids, ?_, hids, ?_, ?_, ?_, ?_, ?_, ?_⟩
      · rw [zipWith_getElemQ, hrec, List.getElem?_map, hcomp]
        rfl
      · simp [applyData, dataOf, hscope]
      · simp [applyData, dataOf, hscope, mkAnalysis]
      · simp [applyData, dataOf, hscope, mkAnalysis]
      · simp [applyData, dataOf, hscope, mkAnalysis]
      · simp [applyData, dataOf, hscope, mkAnalysis]
      · simp [applyData, dataOf, hscope, mkAnalysis]
  · intro context
    cases hp : pass1 context <;> simp [generateAnalysis, hp, Except.map, isErr]

/-- The registry of the C5 witness: `A` references the component `B`, a
directive named `Missing` that no registered component bears, and a
non-component directive; `B` has no binding scope. -/
def c5Context : List ComponentInfo :=
  [⟨"A", some "a-selector", "F", "TA", [], [],
     some [⟨"B", true⟩, ⟨"Missing", true⟩, ⟨"NotAComponent", false⟩]⟩,
   ⟨"B", none, "F", "TB", [], [], none⟩]

/-- The analysis the C5 witness expects: `Missing` is silently dropped, `B`
resolves to record 1, and everything else is untouched. -/
def c5Result : List IndexedComponent :=
  [⟨"A", some "a-selector", "F", "TA", [], [1]⟩,
   ⟨"B", none, "F", "TB", [], []⟩]

/-- C5 witness: the claim theorem applied to the concrete registry
`c5Context`, whose unresolved reference `Missing` is dropped without an
error. -/
theorem c5_unresolved_references_dropped_witness :
    generateAnalysis c5Context = .ok c5Result ∧
    (∃ r ids,
      c5Result[0]? = some r ∧
      getTemplateIdentifiers ([]) ([]) = .ok ids ∧
      r.usedComponents =
        (([⟨"B", true⟩, ⟨"Missing", true⟩, ⟨"NotAComponent", false⟩] :
            List DirectiveMeta).filter (fun d => d.isComponent)).filterMap
          (fun d => lastIndexOf (c5Context.map (fun c => c.declarationName)) d.name) ∧
      r.name = "A" ∧
      r.selector = some "a-selector" ∧
      r.sourceFile = "F" ∧
      r.content = "TA" ∧
      r.identifiers = ids) :=
  ⟨rfl,
    c5_unresolved_references_dropped.1 c5Context c5Result 0
      ⟨"A", some "a-selector", "F", "TA", [], [],
        some [⟨"B", true⟩, ⟨"Missing", true⟩, ⟨"NotAComponent", false⟩]⟩
      [⟨"B", true⟩, ⟨"Missing", true⟩, ⟨"NotAComponent", false⟩] rfl rfl rfl⟩

/-- The default-delimiter interpolation configuration. -/
def defaultInterpolationConfig : InterpolationConfig :=
  .config ("\x7b\x7b") ("\x7d\x7d")

/-- Skipped templates contribute nothing to the fixes-by-file map, whatever
the accumulator. -/
theorem getFixesByFileAux_filter :
    ∀ (templates : List ResolvedTemplate) (acc : List (String × List FixedTemplate)),
      getFixesByFileAux acc templates =
        getFixesByFileAux acc (templates.filter (fun t => !skipTemplate t)) := by
  intro templates
  induction templates with
  | nil => intro acc; rfl
  | cons t rest ih =>
    intro acc
    by_cases hskip : skipTemplate t
    · simp [getFixesByFileAux, hskip, List.filter, ih]
    · simp only [List.filter, hskip, Bool.not_false]
      cases hfix : fixInterpolations t with
      | none => simp [getFixesByFileAux, hskip, hfix, ih]
      | some tf =>
        by_cases hhas : fbfHas acc t.filePath
        · cases hinl : t.inline <;>
            simp [getFixesByFileAux, hskip, hfix, hhas, hinl, ih]
        · simp [getFixesByFileAux, hskip, hfix, hhas, ih]

/-- C7: templates with an unknown interpolation configuration or delimiters
other than the default pair are excluded from consideration — the
fixes-by-file map equals the one computed from the eligible templates alone,
so a custom-delimiter template acquires no fix record, no content change and
no diagnostic, whatever its content; and the skip condition holds exactly for
an unknown configuration or a non-default delimiter pair. -/
theorem c7_custom_delimiters_excluded :
    (∀ templates : List ResolvedTemplate,
       getFixesByFile templates =
         getFixesByFile (templates.filter (fun t => !skipTemplate t))) ∧
    (∀ (filePath : String) (content : List Char) (start : Nat) (inl : Bool),
       skipTemplate ⟨filePath, content, start, inl, .unknown⟩ = true) ∧
    (∀ (filePath : String) (content : List Char) (start : Nat) (inl : Bool)
       (s e : String),
       skipTemplate ⟨filePath, content, start, inl, .config s e⟩ =
         !(s == "\x7b\x7b" && e == "\x7d\x7d")) := by
  refine ⟨?_, ?_, ?_⟩
  · intro templates
    exact getFixesByFileAux_filter templates []
  · intro _ _ _ _; rfl
  · intro _ _ _ _ _ _; rfl

/-- The C6 counterexample template: its content `\x7b\x7ba'b\x7b\x7bc\x7d`
contains one invalid interpolation (the final `\x7b\x7bc\x7d`), preceded by
an unterminated `\x7b\x7ba'b` whose quote interacts with the quotes of the
repair's replacement text. -/
def c6Template : ResolvedTemplate :=
  ⟨"/a/b.html", ("\x7b\x7ba'b\x7b\x7bc\x7d").data, 0, false,
    defaultInterpolationConfig⟩

/-- The repaired content of `c6Template` after one repair run. -/
def c6FixedContent : List Char :=
  ("\x7b\x7ba'b\x7b\x7b '\x7b\x7b' \x7d\x7dc\x7b\x7b '\x7d' \x7d\x7d").data

/-- C6 counterexample: one repair run fixes `c6Template` into
`c6FixedContent`, yet running the repair on the already-fixed content detects
a further invalid interpolation (the second pattern matches across the
original stray quote and the quotes inserted by the replacement), so
`fixInterpolations` is NOT the no-fixes-found result on already-fixed
content and the repair is not idempotent at the text level. -/
theorem c6_counterexample :
    (fixInterpolations c6Template).map FixedTemplate.newContent =
      some c6FixedContent ∧
    (fixInterpolations
      ⟨"/a/b.html", c6FixedContent, 0, false, defaultInterpolationConfig⟩).isSome
      = true :=
  ⟨rfl, rfl⟩

/-- The spec's example input with the comment idiom. -/
def c6ExampleA : ResolvedTemplate :=
  ⟨"a.html", ("\x7b\x7bexpr\x7d<!-- cmt -->\x7d").data, 0, false,
    defaultInterpolationConfig⟩

/-- The spec's example of a singly terminated interpolation. -/
def c6ExampleB : ResolvedTemplate :=
  ⟨"b.html", ("\x7b\x7b 1 \x7d").data, 0, false, defaultInterpolationConfig⟩

/-- C6 (amended): the repair pass is idempotent on the spec's example inputs
— re-running `fixInterpolations` on their repaired content finds no invalid
interpolation — but not on every template text (see the counterexample,
where a stray quote before an unterminated interpolation defeats
idempotence). -/
theorem c6_examples_idempotent :
    (fixInterpolations c6ExampleA).isSome = true ∧
    ((fixInterpolations c6ExampleA).bind (fun f =>
      fixInterpolations ⟨"a.html", f.newContent, 0, false,
        defaultInterpolationConfig⟩)) = none ∧
    (fixInterpolations c6ExampleB).isSome = true ∧
    ((fixInterpolations c6ExampleB).bind (fun f =>
      fixInterpolations ⟨"b.html", f.newContent, 0, false,
        defaultInterpolationConfig⟩)) = none :=
  ⟨rfl, rfl, rfl, rfl⟩

/-- The C8 template, recorded as starting at offset 8 of its file. -/
def c8Template : ResolvedTemplate :=
  ⟨"c8.ts", ("\x7b\x7bexpr\x7d<!-- cmt -->\x7d").data, 8, true,
    defaultInterpolationConfig⟩

/-- The file containing the C8 template at offset 8, after two short lines. -/
def c8File : List Char :=
  ("abc\ndef\n" ++ "\x7b\x7bexpr\x7d<!-- cmt -->\x7d").data

/-- What the repair actually produces for the C8 input: the expression is
spliced without padding spaces and the comment text keeps its original
spacing. -/
def c8ActualContent : List Char :=
  ("\x7b\x7b '\x7b\x7b' \x7d\x7dexpr\x7b\x7b '\x7d\x7d' \x7d\x7d<!-- cmt -->").data

/-- The rewrite the claim asserts, with spaces around `expr` and the spaces
of the comment dropped. -/
def c8ClaimedContent : List Char :=
  ("\x7b\x7b '\x7b\x7b' \x7d\x7d expr \x7b\x7b '\x7d\x7d' \x7d\x7d<!--cmt-->").data

/-- C8 counterexample: the repaired content of the C8 input is
`c8ActualContent`, not the `c8ClaimedContent` stated by the claim — the
replacement inserts the first capture group without padding and preserves the
comment body verbatim, so the claimed whitespace placement is wrong. -/
theorem c8_counterexample :
    (fixInterpolations c8Template).map FixedTemplate.newContent =
      some c8ActualContent ∧
    ((fixInterpolations c8Template).map FixedTemplate.newContent ==
      some c8ClaimedContent) = false :=
  ⟨rfl, rfl⟩

/-- C8 (amended): for the default-delimiter template with content
`\x7b\x7bexpr\x7d<!-- cmt -->\x7d` recorded at start offset 8, the repair
rewrites it to `\x7b\x7b '\x7b\x7b' \x7d\x7dexpr\x7b\x7b '\x7d\x7d'
\x7d\x7d<!-- cmt -->` and records exactly one invalid interpolation, whose
span starts at the match's offset within the template (0) plus the
template's start-within-file (8) and covers the whole match in the file
text; the position reported for it (line + 1, character + 1 over the
precomputed line starts) is line 3, column 1, the 1-based position of the
original match. -/
theorem c8_rewrite_and_span :
    fixInterpolations c8Template =
      some ⟨c8Template, c8ActualContent,
        [⟨("\x7b\x7bexpr\x7d<!-- cmt -->\x7d").data, ⟨8, 28⟩⟩]⟩ ∧
    jsSubstring c8File 8 28 = ("\x7b\x7bexpr\x7d<!-- cmt -->\x7d").data ∧
    (getLineAndCharacterFromPosition (computeLineStartsMap c8File) 8).1 + 1 = 3 ∧
    (getLineAndCharacterFromPosition (computeLineStartsMap c8File) 8).2 + 1 = 1 :=
  ⟨rfl, rfl, rfl, rfl⟩

/-- Does the computation avoid failing with this particular error message?
Holds for successes and for failures with any other message. -/
def errNe (msg : String) : Except String α → Bool
  | .error e => e != msg
  | .ok _ => true

/-- A bind avoids an error message when both sides do. -/
theorem errNe_bind (msg : String) (x : Except String α)
    (f : α → Except String β) (hx : errNe msg x = true)
    (hf : ∀ a, errNe msg (f a) = true) : errNe msg (x >>= f) = true := by
  cases x with
  | error e => simpa [Bind.bind, Except.bind, errNe] using hx
  | ok a => simpa [Bind.bind, Except.bind] using hf a

mutual

/-- The expression visitor never fails with the empty-scope-stack message
(its only error is the missing-function-call-target type error). -/
theorem visit_errNe : ∀ a : AST,
    errNe emptyContextMsg (ExpressionVisitor.visit a) = true
  | .binary l r => by
    simp only [ExpressionVisitor.visit]
    exact errNe_bind _ _ _ (visit_errNe l)
      (fun _ => errNe_bind _ _ _ (visit_errNe r) (fun _ => rfl))
  | .chain es => by
    simp only [ExpressionVisitor.visit]
    exact visitAll_errNe es
  | .conditional c t f => by
    simp only [ExpressionVisitor.visit]
    exact errNe_bind _ _ _ (visit_errNe c)
      (fun _ => errNe_bind _ _ _ (visit_errNe t)
        (fun _ => errNe_bind _ _ _ (visit_errNe f) (fun _ => rfl)))
  | .bindingPipe e args => by
    simp only [ExpressionVisitor.visit]
    exact errNe_bind _ _ _ (visit_errNe e)
      (fun _ => errNe_bind _ _ _ (visitAll_errNe args) (fun _ => rfl))
  | .functionCall none args => by
    simp only [ExpressionVisitor.visit]
    decide
  | .functionCall (some t) args => by
    simp only [ExpressionVisitor.visit]
    exact errNe_bind _ _ _ (visit_errNe t)
      (fun _ => errNe_bind _ _ _ (visitAll_errNe args) (fun _ => rfl))
  | .implicitReceiver => rfl
  | .interpolation es => by
    simp only [ExpressionVisitor.visit]
    exact visitAll_errNe es
  | .keyedRead o k => by
    simp only [ExpressionVisitor.visit]
    exact errNe_bind _ _ _ (visit_errNe o)
      (fun _ => errNe_bind _ _ _ (visit_errNe k) (fun _ => rfl))
  | .keyedWrite o k v => by
    simp only [ExpressionVisitor.visit]
    exact errNe_bind _ _ _ (visit_errNe o)
      (fun _ => errNe_bind _ _ _ (visit_errNe k)
        (fun _ => errNe_bind _ _ _ (visit_errNe v) (fun _ => rfl)))
  | .literalArray es => by
    simp only [ExpressionVisitor.visit]
    exact visitAll_errNe es
  | .literalMap vs => by
    simp only [ExpressionVisitor.visit]
    exact visitAll_errNe vs
  | .literalPrimitive => rfl
  | .methodCall r args => by
    simp only [ExpressionVisitor.visit]
    exact errNe_bind _ _ _ (visit_errNe r)
      (fun _ => errNe_bind _ _ _ (visitAll_errNe args) (fun _ => rfl))
  | .prefixNot e => by
    simp only [ExpressionVisitor.visit]
    exact visit_errNe e
  | .nonNullAssert e => by
    simp only [ExpressionVisitor.visit]
    exact visit_errNe e
  | .propertyRead r _ _ => by
    simp only [ExpressionVisitor.visit]
    exact errNe_bind _ _ _ (visit_errNe r) (fun _ => rfl)
  | .propertyWrite r v => by
    simp only [ExpressionVisitor.visit]
    exact errNe_bind _ _ _ (visit_errNe r)
      (fun _ => errNe_bind _ _ _ (visit_errNe v) (fun _ => rfl))
  | .safePropertyRead r _ _ => by
    simp only [ExpressionVisitor.visit]
    exact visit_errNe r
  | .safeMethodCall r args => by
    simp only [ExpressionVisitor.visit]
    exact errNe_bind _ _ _ (visit_errNe r)
      (fun _ => errNe_bind _ _ _ (visitAll_errNe args) (fun _ => rfl))
  | .quote => rfl

/-- `visitAll` of the expression visitor never fails with the
empty-scope-stack message. -/
theorem visitAll_errNe : ∀ es : List AST,
    errNe emptyContextMsg (ExpressionVisitor.visitAll es) = true
  | [] => rfl
  | a :: rest => by
    simp only [ExpressionVisitor.visitAll]
    exact errNe_bind _ _ _ (visit_errNe a)
      (fun _ => errNe_bind _ _ _ (visitAll_errNe rest) (fun _ => rfl))

end

/-- Span correction never fails with the empty-scope-stack message (its
errors are the type error and the token-mismatch message). -/
theorem setRealAux_errNe (lexed : List LexToken) :
    ∀ (entities : List JVal) (i : Nat),
      errNe emptyContextMsg (setRealExpressionSpanAux lexed entities i) = true := by
  intro entities
  induction entities with
  | nil => intro i; rfl
  | cons v rest ih =>
    intro i
    cases hL : lexed[i]? with
    | none => simp only [setRealExpressionSpanAux, hL]; decide
    | some t =>
      cases v with
      | arr elems => simp only [setRealExpressionSpanAux, hL]; decide
      | entity n sp =>
        by_cases hne : n = t.strValue
        · simp only [setRealExpressionSpanAux, hL]
          rw [if_neg (fun hc => hc hne)]
          cases haux : setRealExpressionSpanAux lexed rest (i + 1) with
          | error e =>
            have h2 := ih (i + 1)
            rw [haux] at h2
            simpa [Bind.bind, Except.bind, errNe] using h2
          | ok tail => simp [Bind.bind, Except.bind, haux, errNe]
        · simp only [setRealExpressionSpanAux, hL]
          rw [if_pos hne]
          decide

/-- With a non-empty scope stack, `addIdentifiers` never fails with the
empty-scope-stack message. -/
theorem addIdentifiers_errNe (file : List Char) (context : List Frame)
    (visited : List JVal) (node : SrcSpan) (h : context ≠ []) :
    errNe emptyContextMsg
      (TemplateVisitor.addIdentifiers file context visited node) = true := by
  simp only [TemplateVisitor.addIdentifiers]
  cases hs : setRealExpressionSpan visited node file with
  | error e =>
    have h2 : errNe emptyContextMsg (setRealExpressionSpan visited node file) = true :=
      setRealAux_errNe _ visited 0
    rw [hs] at h2
    simpa [Bind.bind, Except.bind, errNe] using h2
  | ok entities => simp [Bind.bind, Except.bind, h, errNe]

mutual

/-- The template visitor never fails with the empty-scope-stack message:
every call of `addIdentifiers` happens under the frame the visit wrapper just
pushed, so the stack it receives is non-empty. -/
theorem tmplVisit_errNe : ∀ (file : List Char) (ctx : List Frame) (n : TmplNode),
    errNe emptyContextMsg (TemplateVisitor.visit file ctx n) = true
  | file, ctx, .Element name attrs children refs sp => by
    simp only [TemplateVisitor.visit]
    exact errNe_bind _ _ _ (tmplVisitAll_errNe file _ attrs)
      (fun _ => errNe_bind _ _ _ (tmplVisitAll_errNe file _ children)
        (fun _ => errNe_bind _ _ _ (tmplVisitAll_errNe file _ refs)
          (fun _ => rfl)))
  | file, ctx, .Template tagName attrs children refs vars sp => by
    simp only [TemplateVisitor.visit]
    exact errNe_bind _ _ _ (tmplVisitAll_errNe file _ attrs)
      (fun _ => errNe_bind _ _ _ (tmplVisitAll_errNe file _ children)
        (fun _ => errNe_bind _ _ _ (tmplVisitAll_errNe file _ refs)
          (fun _ => errNe_bind _ _ _ (tmplVisitAll_errNe file _ vars)
            (fun _ => rfl))))
  | _, _, .Content _ => rfl
  | _, _, .Variable _ _ => rfl
  | _, _, .Reference _ _ => rfl
  | _, _, .TextAttribute _ _ => rfl
  | file, ctx, .BoundAttribute name value sp => by
    simp only [TemplateVisitor.visit]
    exact errNe_bind _ _ _ (visit_errNe value)
      (fun ents => addIdentifiers_errNe file _ ents sp (by simp))
  | _, _, .BoundEvent _ _ => rfl
  | _, _, .Text _ => rfl
  | file, ctx, .BoundText value sp => by
    simp only [TemplateVisitor.visit]
    exact errNe_bind _ _ _ (visit_errNe value)
      (fun ents => addIdentifiers_errNe file _ ents sp (by simp))
  | _, _, .Icu _ => rfl

/-- `visitAll` of the template visitor never fails with the
empty-scope-stack message. -/
theorem tmplVisitAll_errNe : ∀ (file : List Char) (ctx : List Frame)
    (ns : List TmplNode),
    errNe emptyContextMsg (TemplateVisitor.visitAll file ctx ns) = true
  | _, _, [] => rfl
  | file, ctx, n :: rest => by
    simp only [TemplateVisitor.visitAll]
    exact errNe_bind _ _ _ (tmplVisit_errNe file ctx n)
      (fun _ => errNe_bind _ _ _ (tmplVisitAll_errNe file ctx rest)
        (fun _ => rfl))

end

/-- C9: `addIdentifiers` invoked with an empty scope stack always fails (the
span correction may fail first; otherwise the explicit empty-stack check
throws); and under any traversal started through `getTemplateIdentifiers`
this error branch is unreachable — the traversal never produces the
empty-scope-stack error, because every bound-attribute or bound-text
expression is processed under at least the frame its visit wrapper pushed. -/
theorem c9_empty_scope_stack :
    (∀ (file : List Char) (visitedEntities : List JVal) (currentNode : SrcSpan),
       isErr (TemplateVisitor.addIdentifiers file [] visitedEntities currentNode)
         = true) ∧
    (∀ (file : List Char) (template : List TmplNode),
       errNe emptyContextMsg (getTemplateIdentifiers file template) = true) := by
  constructor
  · intro file visited node
    simp only [TemplateVisitor.addIdentifiers]
    cases hs : setRealExpressionSpan visited node file with
    | error e => simp [Bind.bind, Except.bind, isErr]
    | ok entities => simp [Bind.bind, Except.bind, isErr]
  · intro file template
    exact tmplVisitAll_errNe file [] template

end Ng
